import Mathlib

/-!
Shallow embedding of `src/McStas/Text2MCPL.C` (the `main` function of the
Text2MCPL converter).  Doubles are modelled as real numbers, the scanned
input stream as a list of tokens (numeric field or non-numeric junk), and
the external MCPL sink as an explicit result structure recording the header
metadata, the appended particles and the resource bookkeeping.
-/

namespace Text2MCPL

/-- One scanned 7-field record, in the order the C code reads the fields:
`hit_x hit_y hit_z px py pz kinetic_energy` (line 89). -/
structure HitRecord where
  x : ℝ
  y : ℝ
  z : ℝ
  px : ℝ
  py : ℝ
  pz : ℝ
  ekin : ℝ


/-- The particle record handed to `mcpl_add_particle` (lines 115-126):
position array, pdg code, kinetic energy, direction array, weight. -/
structure Particle where
  position : ℝ × ℝ × ℝ
  pdgcode : ℤ
  ekin : ℝ
  direction : ℝ × ℝ × ℝ
  weight : ℝ

/-- `int pdg_num_neutron = 2112;` (line 84). -/
def pdg_num_neutron : ℤ := 2112

/-- `int weight = 1;` (line 85), assigned to the double-valued weight field. -/
def weight : ℝ := 1

/-- Tolerance `1.0e-5` used in the direction check (line 107). -/
def tolerance : ℝ := 1e-5

/-- `double length = sqrt(px * px + py * py + pz * pz);` (line 91). -/
noncomputable def momLength (px py pz : ℝ) : ℝ :=
  Real.sqrt (px * px + py * py + pz * pz)

/-- `dirsq = normalized_dx^2 + normalized_dy^2 + normalized_dz^2` where
`normalized_d* = p* / length` (lines 100-105). -/
noncomputable def dirsq (px py pz : ℝ) : ℝ :=
  (px / momLength px py pz) * (px / momLength px py pz) +
  (py / momLength px py pz) * (py / momLength px py pz) +
  (pz / momLength px py pz) * (pz / momLength px py pz)

/-- The per-record body of the while loop (lines 91-127): skip when
`length == 0`, skip when `fabs(dirsq - 1.0) > 1.0e-5`, otherwise build the
particle that is appended to the sink. -/
noncomputable def processRecord (r : HitRecord) : Option Particle :=
  if momLength r.px r.py r.pz = 0 then
    none
  else if |dirsq r.px r.py r.pz - 1| > tolerance then
    none
  else
    some { position := (r.x, r.y, r.z)
           pdgcode := pdg_num_neutron
           ekin := r.ekin
           direction := (r.px / momLength r.px r.py r.pz,
                         r.py / momLength r.px r.py r.pz,
                         r.pz / momLength r.px r.py r.pz)
           weight := weight }

/-- One whitespace-separated field of the input text, as seen by
`fscanf(f, "%lf ...")`: either a field that parses as a floating number, or
a field on which `%lf` conversion fails. -/
inductive Token where
  | num (v : ℝ)
  | junk


/-- The `while (fscanf(...) == 7)` loop (lines 89-129): repeatedly scan
seven numeric fields; on success run the record body and append its
particle (if any) to the sink, on the first scan that yields fewer than 7
numeric fields stop. -/
noncomputable def readLoop : List Token → List Particle
  | .num x :: .num y :: .num z :: .num px :: .num py :: .num pz :: .num e :: rest =>
      (processRecord ⟨x, y, z, px, py, pz, e⟩).toList ++ readLoop rest
  | _ => []

/-- The list of syntactically complete 7-field records at the front of the
token stream: what the scan loop successfully parses before stopping. -/
def parsedRecords : List Token → List HitRecord
  | .num x :: .num y :: .num z :: .num px :: .num py :: .num pz :: .num e :: rest =>
      ⟨x, y, z, px, py, pz, e⟩ :: parsedRecords rest
  | _ => []

/-- Whether the next `fscanf` attempt on the stream yields 7 numeric
fields. -/
def scanOk : List Token → Bool
  | .num _ :: .num _ :: .num _ :: .num _ :: .num _ :: .num _ :: .num _ :: _ => true
  | _ => false

/-- The 7 tokens that scan into a given record. -/
def encodeRecord (r : HitRecord) : List Token :=
  [.num r.x, .num r.y, .num r.z, .num r.px, .num r.py, .num r.pz, .num r.ekin]

/-- Token streams for a list of complete records. -/
def encodeRecords (rs : List HitRecord) : List Token :=
  (rs.map encodeRecord).flatten

/-- Observable outcome of one run of `main`: exit code, diagnostic
messages, header metadata, appended particles, and resource bookkeeping. -/
structure MainResult where
  exitCode : ℕ
  usagePrinted : Bool
  errorPrinted : Bool
  outfileCreated : Bool
  srcname : Option String
  comments : List String
  particles : List Particle
  finalizeCount : ℕ
  sourceClosed : Bool

/-- `main` (lines 56-136).  `argv` is the argument vector (`argc` is its
length), `openOk` tells whether `fopen(input_file, "r")` succeeds, and
`input` is the token stream of the opened file.  Mirrors the source order:
argument check, `fopen` check, `mcpl_create_outfile`,
`mcpl_hdr_set_srcname(f2, output_file)`, `mcpl_hdr_add_comment`, the read
loop, `mcpl_closeandgzip_outfile`, `fclose`, `return 0`. -/
noncomputable def main (argv : List String) (openOk : Bool) (input : List Token) :
    MainResult :=
  if argv.length ≠ 3 then
    { exitCode := 1, usagePrinted := true, errorPrinted := false
      outfileCreated := false, srcname := none, comments := []
      particles := [], finalizeCount := 0, sourceClosed := false }
  else if openOk = false then
    { exitCode := 1, usagePrinted := false, errorPrinted := true
      outfileCreated := false, srcname := none, comments := []
      particles := [], finalizeCount := 0, sourceClosed := false }
  else
    { exitCode := 0, usagePrinted := false, errorPrinted := false
      outfileCreated := true
      srcname := some (argv.getD 2 "")
      comments := ["Extracting Neutrons from the txt file"]
      particles := readLoop input
      finalizeCount := 1, sourceClosed := true }

/-! ### Helper lemmas -/

lemma momLength_nonneg (px py pz : ℝ) : 0 ≤ momLength px py pz :=
  Real.sqrt_nonneg _

lemma readLoop_encode (r : HitRecord) (ts : List Token) :
    readLoop (encodeRecord r ++ ts) = (processRecord r).toList ++ readLoop ts := by
  rfl

lemma readLoop_eq_filterMap (ts : List Token) :
    readLoop ts = (parsedRecords ts).filterMap processRecord := by
  induction ts using readLoop.induct with
  | case1 x y z px py pz e rest ih =>
    rw [readLoop, parsedRecords, List.filterMap_cons]
    cases h : processRecord ⟨x, y, z, px, py, pz, e⟩ <;> simp [h, ih]
  | case2 ts h =>
    rw [readLoop.eq_2 ts h, parsedRecords.eq_2 ts h]
    rfl

lemma readLoop_eq_nil (ts : List Token) (h : scanOk ts = false) :
    readLoop ts = [] := by
  apply readLoop.eq_2
  intro x y z px py pz e rest hEq
  subst hEq
  simp [scanOk] at h

lemma readLoop_encode_append (rs : List HitRecord) (rest : List Token)
    (h : scanOk rest = false) :
    readLoop (encodeRecords rs ++ rest) = rs.filterMap processRecord := by
  induction rs with
  | nil =>
    simpa [encodeRecords] using readLoop_eq_nil rest h
  | cons r rs ih =>
    have hsplit : encodeRecords (r :: rs) = encodeRecord r ++ encodeRecords rs := by
      simp [encodeRecords]
    rw [hsplit, List.append_assoc, readLoop_encode, ih, List.filterMap_cons]
    cases hr : processRecord r <;> simp [hr]

lemma length_filterMap_sub (l : List HitRecord) :
    (l.filterMap processRecord).length =
      l.length - (l.filter (fun r => (processRecord r).isNone)).length := by
  induction l with
  | nil => rfl
  | cons r l ih =>
    have hle := List.length_filter_le (fun r => (processRecord r).isNone) l
    cases h : processRecord r <;>
      simp [List.filterMap_cons, List.filter_cons, h] <;> omega

lemma momLength_100 : momLength 1 0 0 = 1 := by
  have h : (1 * 1 + 0 * 0 + 0 * 0 : ℝ) = 1 := by norm_num
  rw [momLength, h, Real.sqrt_one]

lemma dirsq_100 : dirsq 1 0 0 = 1 := by
  rw [dirsq, momLength_100]
  norm_num

lemma processRecord_eval :
    processRecord ⟨0, 0, 0, 1, 0, 0, 5⟩ = some ⟨(0, 0, 0), 2112, 5, (1, 0, 0), 1⟩ := by
  norm_num [processRecord, momLength_100, dirsq_100, tolerance, pdg_num_neutron, weight]

/-! ### Claims -/

/-- C1: a parsed 7-field record yields an appended particle if and only if
the momentum magnitude is strictly positive and the squared magnitude of
the normalized direction deviates from 1 by at most 1.0e-5. -/
theorem text2mcpl_C1 (r : HitRecord) :
    (∃ p, processRecord r = some p) ↔
      0 < momLength r.px r.py r.pz ∧ |dirsq r.px r.py r.pz - 1| ≤ tolerance := by
  rw [processRecord]
  split_ifs with h1 h2
  · simp [h1]
  · constructor
    · rintro ⟨p, hp⟩
      cases hp
    · rintro ⟨-, hle⟩
      exact absurd h2 (not_lt.mpr hle)
  · constructor
    · intro _
      exact ⟨lt_of_le_of_ne (momLength_nonneg _ _ _) (Ne.symm h1), not_lt.mp h2⟩
    · intro _
      exact ⟨_, rfl⟩

/-- C2: every appended particle carries the input position and kinetic
energy unchanged, direction equal to the momentum scaled by one over its
magnitude (squared magnitude within 1e-5 of 1), pdg code 2112 and
weight 1. -/
theorem text2mcpl_C2 (r : HitRecord) (p : Particle)
    (h : processRecord r = some p) :
    p.position = (r.x, r.y, r.z) ∧
    p.direction = (r.px / momLength r.px r.py r.pz,
                   r.py / momLength r.px r.py r.pz,
                   r.pz / momLength r.px r.py r.pz) ∧
    |dirsq r.px r.py r.pz - 1| ≤ tolerance ∧
    p.ekin = r.ekin ∧ p.pdgcode = 2112 ∧ p.weight = 1 := by
  rw [processRecord] at h
  split_ifs at h with h1 h2
  injection h with h
  subst h
  exact ⟨rfl, rfl, not_lt.mp h2, rfl, rfl, rfl⟩

theorem text2mcpl_C2_witness :
    processRecord ⟨0, 0, 0, 1, 0, 0, 5⟩ = some ⟨(0, 0, 0), 2112, 5, (1, 0, 0), 1⟩ ∧
    (Particle.mk (0, 0, 0) 2112 5 (1, 0, 0) 1).position = (0, 0, 0) ∧
    (Particle.mk (0, 0, 0) 2112 5 (1, 0, 0) 1).ekin = 5 ∧
    (Particle.mk (0, 0, 0) 2112 5 (1, 0, 0) 1).pdgcode = 2112 ∧
    (Particle.mk (0, 0, 0) 2112 5 (1, 0, 0) 1).weight = 1 := by
  have h : processRecord ⟨0, 0, 0, 1, 0, 0, 5⟩ =
      some ⟨(0, 0, 0), 2112, 5, (1, 0, 0), 1⟩ := processRecord_eval
  have hc := text2mcpl_C2 ⟨0, 0, 0, 1, 0, 0, 5⟩ ⟨(0, 0, 0), 2112, 5, (1, 0, 0), 1⟩ h
  exact ⟨h, hc.1, hc.2.2.2.1, hc.2.2.2.2.1, hc.2.2.2.2.2⟩

/-- C3: the appended particles are exactly the valid parsed records in
source order, so their number equals the number of syntactically complete
records minus the number of records skipped by the momentum checks. -/
theorem text2mcpl_C3 (ts : List Token) :
    readLoop ts = (parsedRecords ts).filterMap processRecord ∧
    (readLoop ts).length =
      (parsedRecords ts).length -
        ((parsedRecords ts).filter (fun r => (processRecord r).isNone)).length := by
  refine ⟨readLoop_eq_filterMap ts, ?_⟩
  rw [readLoop_eq_filterMap ts]
  exact length_filterMap_sub _

/-- C5: a record whose momentum components are all zero is never appended,
whatever its position and kinetic energy, and the loop goes on with the
remaining input. -/
theorem text2mcpl_C5 (x y z ekin : ℝ) (ts : List Token) :
    processRecord ⟨x, y, z, 0, 0, 0, ekin⟩ = none ∧
    readLoop (encodeRecord ⟨x, y, z, 0, 0, 0, ekin⟩ ++ ts) = readLoop ts := by
  have h : momLength 0 0 0 = 0 := by
    have h0 : (0 * 0 + 0 * 0 + 0 * 0 : ℝ) = 0 := by norm_num
    rw [momLength, h0, Real.sqrt_zero]
  constructor
  · rw [processRecord]
    simp [h]
  · rw [readLoop_encode, processRecord]
    simp [h]

/-- C4 counterexample: the header label is not set to the input file name
(the first command-line argument): with arguments `in.txt out.mcpl`, the
recorded name differs from `in.txt`. -/
theorem text2mcpl_C4_cex :
    (main ["Text2MCPL", "in.txt", "out.mcpl"] true []).srcname ≠ some "in.txt" := by
  simp [main]

/-- C4 (amended): the header source-name label is set to the OUTPUT file
name (the second command-line argument), alongside the one fixed
descriptive comment. -/
theorem text2mcpl_C4 (argv : List String) (openOk : Bool) (input : List Token)
    (h3 : argv.length = 3) (hopen : openOk = true) :
    (main argv openOk input).srcname = some (argv.getD 2 "") ∧
    (main argv openOk input).comments = ["Extracting Neutrons from the txt file"] := by
  subst hopen
  simp [main, h3]

theorem text2mcpl_C4_witness :
    (main ["Text2MCPL", "in.txt", "out.mcpl"] true []).srcname = some "out.mcpl" ∧
    (main ["Text2MCPL", "in.txt", "out.mcpl"] true []).comments =
      ["Extracting Neutrons from the txt file"] :=
  text2mcpl_C4 ["Text2MCPL", "in.txt", "out.mcpl"] true [] rfl rfl

/-- C6: with a well-formed prefix of complete records followed by content
whose next scan yields fewer than 7 numeric fields, the run stops there
without error (exit code 0), keeps every previously appended particle, and
finalizes the sink once and closes the source. -/
theorem text2mcpl_C6 (argv : List String) (rs : List HitRecord) (rest : List Token)
    (h3 : argv.length = 3) (hrest : scanOk rest = false) :
    (main argv true (encodeRecords rs ++ rest)).particles = rs.filterMap processRecord ∧
    (main argv true (encodeRecords rs ++ rest)).exitCode = 0 ∧
    (main argv true (encodeRecords rs ++ rest)).finalizeCount = 1 ∧
    (main argv true (encodeRecords rs ++ rest)).sourceClosed = true := by
  have hp := readLoop_encode_append rs rest hrest
  simp [main, h3, hp]

theorem text2mcpl_C6_witness :
    (["Text2MCPL", "in.txt", "out.mcpl"] : List String).length = 3 ∧
    scanOk [Token.junk] = false ∧
    (main ["Text2MCPL", "in.txt", "out.mcpl"] true
        (encodeRecords [] ++ [Token.junk])).particles =
      List.filterMap processRecord [] ∧
    (main ["Text2MCPL", "in.txt", "out.mcpl"] true
        (encodeRecords [] ++ [Token.junk])).exitCode = 0 ∧
    (main ["Text2MCPL", "in.txt", "out.mcpl"] true
        (encodeRecords [] ++ [Token.junk])).finalizeCount = 1 ∧
    (main ["Text2MCPL", "in.txt", "out.mcpl"] true
        (encodeRecords [] ++ [Token.junk])).sourceClosed = true :=
  ⟨rfl, rfl, text2mcpl_C6 ["Text2MCPL", "in.txt", "out.mcpl"] [] [Token.junk] rfl rfl⟩

/-- C7: exit code 1 with the usage message when the argument count is not
3, exit code 1 with the open-error message when the input cannot be
opened, and exit code 0 on normal completion (whatever the input). -/
theorem text2mcpl_C7 (argv : List String) (openOk : Bool) (input : List Token) :
    (argv.length ≠ 3 →
      (main argv openOk input).exitCode = 1 ∧
      (main argv openOk input).usagePrinted = true) ∧
    (argv.length = 3 → openOk = false →
      (main argv openOk input).exitCode = 1 ∧
      (main argv openOk input).errorPrinted = true) ∧
    (argv.length = 3 → openOk = true →
      (main argv openOk input).exitCode = 0) := by
  refine ⟨fun h => ?_, fun h3 ho => ?_, fun h3 ho => ?_⟩ <;> simp [main, *]

theorem text2mcpl_C7_witness :
    (main ["Text2MCPL"] true []).exitCode = 1 ∧
    (main ["Text2MCPL"] true []).usagePrinted = true :=
  (text2mcpl_C7 ["Text2MCPL"] true []).1 (by decide)

/-- C8: when the input file fails to open, the run exits with code 1 and
no output container is ever created (the open check precedes sink
creation). -/
theorem text2mcpl_C8 (argv : List String) (input : List Token) :
    (main argv false input).outfileCreated = false ∧
    (main argv false input).exitCode = 1 := by
  by_cases h : argv.length = 3 <;> simp [main, h]

/-- C9: position and kinetic energy undergo no validation: for any x, y,
z and ekin whatever (negative or extreme included), once the momentum
checks pass the record is appended with those fields unchanged. -/
theorem text2mcpl_C9 (px py pz : ℝ)
    (h1 : 0 < momLength px py pz)
    (h2 : |dirsq px py pz - 1| ≤ tolerance) :
    ∀ x y z ekin : ℝ,
      processRecord ⟨x, y, z, px, py, pz, ekin⟩ =
        some { position := (x, y, z), pdgcode := pdg_num_neutron, ekin := ekin
               direction := (px / momLength px py pz, py / momLength px py pz,
                             pz / momLength px py pz)
               weight := weight } := by
  intro x y z ekin
  rw [processRecord]
  rw [if_neg h1.ne', if_neg (not_lt.mpr h2)]

theorem text2mcpl_C9_witness :
    0 < momLength 1 0 0 ∧ |dirsq 1 0 0 - 1| ≤ tolerance ∧
    processRecord ⟨-5, 2, 3, 1, 0, 0, -4⟩ =
      some { position := (-5, 2, 3), pdgcode := pdg_num_neutron, ekin := -4
             direction := (1 / momLength 1 0 0, 0 / momLength 1 0 0,
                           0 / momLength 1 0 0)
             weight := weight } := by
  have h1 : 0 < momLength 1 0 0 := by rw [momLength_100]; norm_num
  have h2 : |dirsq 1 0 0 - 1| ≤ tolerance := by
    rw [dirsq_100]
    norm_num [tolerance]
  exact ⟨h1, h2, text2mcpl_C9 1 0 0 h1 h2 (-5) 2 3 (-4)⟩

/-- C10: the run is deterministic: equal argument vectors, equal open
outcomes and equal input contents give identical results (particles,
metadata and exit code alike). -/
theorem text2mcpl_C10 (argv1 argv2 : List String) (o1 o2 : Bool)
    (i1 i2 : List Token) (ha : argv1 = argv2) (ho : o1 = o2) (hi : i1 = i2) :
    main argv1 o1 i1 = main argv2 o2 i2 := by
  subst ha
  subst ho
  subst hi
  rfl

theorem text2mcpl_C10_witness :
    main ["Text2MCPL", "in.txt", "out.mcpl"] true [] =
      main ["Text2MCPL", "in.txt", "out.mcpl"] true [] :=
  text2mcpl_C10 ["Text2MCPL", "in.txt", "out.mcpl"] ["Text2MCPL", "in.txt", "out.mcpl"]
    true true [] [] rfl rfl rfl

end Text2MCPL
